import Mathlib

/-!
Verification of the repofix import classification engine.

Shallow embedding of the Import Classification & Rewrite Engine of the
repofix repository, translated from `src/monocheck.ts` (function
`scanAndReport`, lines 894-1146, and the helper functions it calls) and
`src/src/helpers.ts`.  File-system existence checks, the dependency table
and the external `require.resolve` fall-back are modelled as explicit
environment parameters; JavaScript strings are Lean `String`s and the
JavaScript string/array operations used by the source (`startsWith`,
`includes`, first-occurrence `replace`, `split('/')`, stable `sort`,
`trim`) are re-implemented below with their JavaScript semantics.
-/

/-- JS whitespace predicate: the code points relevant to
`String.prototype.trim` and `\s` that can occur in source lines. -/
def isJsWs (c : Char) : Bool :=
  c = ' ' || c = '\t' || c = '\n' || c = '\r' || c = '\x0b' || c = '\x0c' || c = ' '

/-- Quote characters of the character class `['"]` in the source regexes. -/
def isQuote (c : Char) : Bool :=
  c = '\'' || c = '"'

/-- JS `String.prototype.startsWith`. -/
def jsStartsWith (s p : String) : Bool :=
  p.data.isPrefixOf s.data

/-- Substring containment on character lists (JS `String.prototype.includes`). -/
def listContainsSub (pat : List Char) : List Char → Bool
  | [] => pat.isEmpty
  | c :: rest => pat.isPrefixOf (c :: rest) || listContainsSub pat rest

/-- JS `String.prototype.includes`. -/
def jsIncludes (s pat : String) : Bool :=
  listContainsSub pat.data s.data

/-- First-occurrence replacement on character lists. -/
def replaceOnceList (pat rep : List Char) : List Char → List Char
  | [] => if pat.isEmpty then rep else []
  | c :: rest =>
    if pat.isPrefixOf (c :: rest) then rep ++ (c :: rest).drop pat.length
    else c :: replaceOnceList pat rep rest

/-- JS `String.prototype.replace(searchString, replacement)`: replaces the
first occurrence of `pat` (dollar escape sequences in the replacement are
not modelled; no rule in the repository uses them). -/
def jsReplaceOnce (s pat rep : String) : String :=
  String.mk (replaceOnceList pat.data rep.data s.data)

/-- JS `String.prototype.trim` on a character list. -/
def jsTrimList (l : List Char) : List Char :=
  ((l.dropWhile isJsWs).reverse.dropWhile isJsWs).reverse

/-- JS `String.prototype.trim`. -/
def jsTrim (s : String) : String :=
  String.mk (jsTrimList s.data)

/-- Split a character list on a separator character (JS `split(sep)`). -/
def splitCharsOn (sep : Char) : List Char → List (List Char)
  | [] => [[]]
  | c :: rest =>
    let r := splitCharsOn sep rest
    if c = sep then [] :: r
    else
      match r with
      | [] => [[c]]
      | g :: gs => (c :: g) :: gs

/-- JS `String.prototype.split('/')`. -/
def splitSlash (s : String) : List String :=
  (splitCharsOn '/' s.data).map String.mk

/-- JS `Array.prototype.join('/')`. -/
def joinSegs : List String → String
  | [] => ""
  | [s] => s
  | s :: rest => s ++ "/" ++ joinSegs rest

/-- JS `lines.split('\n')`. -/
def splitLines (s : String) : List String :=
  (splitCharsOn '\n' s.data).map String.mk

/-- First path segment: JS `importPath.split('/')[0]`. -/
def seg0 (s : String) : String :=
  (splitSlash s).headD ""

/-- First two path segments: JS `importPath.split('/').slice(0, 2).join('/')`. -/
def seg01 (s : String) : String :=
  joinSegs ((splitSlash s).take 2)

/-- Drop the first `n` characters of a string. -/
def stringDrop (s : String) (n : Nat) : String :=
  String.mk (s.data.drop n)

/-- JS truthiness of a nullable string (`null`, `undefined` and `''` are falsy). -/
def optTruthy : Option String → Bool
  | none => false
  | some s => !(s == "")

/-- JS `a || b` on nullable strings. -/
def jsOrS (a b : Option String) : Option String :=
  match a with
  | some s => if s == "" then b else some s
  | none => b

/-- JS coercion used by template interpolation and `String.replace` when the
value is `undefined`. -/
def jsUndef : Option String → String
  | none => "undefined"
  | some s => s

/-- Path-segment normalization of Node `path.resolve`: drops empty and `.`
segments and lets `..` pop the previous segment (at the root it is dropped,
as for absolute POSIX paths). -/
def normSegsAux (acc : List String) : List String → List String
  | [] => acc
  | s :: rest =>
    if s = "" || s = "." then normSegsAux acc rest
    else if s = ".." then normSegsAux acc.dropLast rest
    else normSegsAux (acc ++ [s]) rest

/-- Normalize a segment list. -/
def normSegs (l : List String) : List String :=
  normSegsAux [] l

/-- Node `path.resolve(base, p)` for an absolute `base` (the only way the
repository calls it): an absolute `p` wins, otherwise `p` is resolved
against `base`. -/
def nodeResolve (base p : String) : String :=
  let segs := if jsStartsWith p "/" then splitSlash p else splitSlash base ++ splitSlash p
  "/" ++ joinSegs (normSegs segs)

/-- Node `path.dirname` for the absolute file paths the repository hands it. -/
def dirname (p : String) : String :=
  "/" ++ joinSegs ((normSegs (splitSlash p)).dropLast)

/-- Drop the common segment prefix of two segment lists. -/
def dropCommon : List String → List String → List String × List String
  | a :: as, b :: bs => if a = b then dropCommon as bs else (a :: as, b :: bs)
  | as, bs => (as, bs)

/-- Node `path.relative(fromP, toP)` for absolute arguments. -/
def nodeRelative (fromP toP : String) : String :=
  let f := normSegs (splitSlash fromP)
  let t := normSegs (splitSlash toP)
  let p := dropCommon f t
  joinSegs (List.replicate p.1.length ".." ++ p.2)

/-- The `/\\/g → '/'` backslash replacement of `convertToAliasPath`. -/
def slashify (s : String) : String :=
  String.mk (s.data.map (fun c => if c = '\\' then '/' else c))

/-- Alias table entry (`interface AliasConfig` in src/monocheck.ts). -/
structure AliasConfig where
  path : String
  description : String
deriving DecidableEq

/-- Special-case (user override) rule (`interface SpecialCase`).  The three
actions are the literals `'rename' | 'replace-method' | 'exclude'`. -/
inductive SCAction where
  | rename
  | replaceMethod
  | exclude
deriving DecidableEq

/-- The string form of an action, as it appears in issue messages. -/
def actionText : SCAction → String
  | .rename => "rename"
  | .replaceMethod => "replace-method"
  | .exclude => "exclude"

/-- A user override rule (`interface SpecialCase` in src/monocheck.ts);
the map key (matchKey) is kept alongside it in the configuration table. -/
structure SpecialCase where
  action : SCAction
  value : Option String
  prefixOnly : Bool
deriving DecidableEq

/-- A community rule (`interface CommunitySolution`).  The source field
`from` is called `fromKey` here because `from` is a Lean keyword. -/
structure CommunitySolution where
  fromKey : String
  toKey : String
  action : SCAction
  description : String
  prefixOnly : Bool
  category : String
  priority : Nat
deriving DecidableEq

/-- The parsed configuration object (`interface Config`): JS objects are
modelled as insertion-ordered association lists with unique keys, matching
`Object.entries` iteration order. -/
structure Config where
  aliases : List (String × AliasConfig)
  specialCases : List (String × SpecialCase)
deriving DecidableEq

/-- The environment of one scan pass over one directory: the configuration,
the fetched community rules, the directory's `dependencies` map, the set of
package roots present under `node_modules`, the set of existing file-system
paths, the external `require.resolve` fall-back (delegated module
resolution), the current working directory and the `--fix` / `--dry-run`
flags. -/
structure ScanEnv where
  cfg : Config
  community : List CommunitySolution
  deps : List (String × String)
  nodeModulesPkgs : List String
  fs : List String
  extResolve : String → Option String
  cwd : String
  autoFix : Bool
  dryRun : Bool

/-- JS object indexing `config.aliases[key]`. -/
def lookupAlias (cfg : Config) (key : String) : Option AliasConfig :=
  List.lookup key cfg.aliases

/-- Truthiness of `dir.dependencies?.[rootPkg]` (an empty version string is
falsy in JS). -/
def depTruthy (deps : List (String × String)) (key : String) : Bool :=
  match List.lookup key deps with
  | some v => !(v == "")
  | none => false

/-- `existsSync(resolved) || existsSync(resolved + '.ts') || existsSync(resolved + '.tsx')`. -/
def exists3 (fs : List String) (p : String) : Bool :=
  fs.contains p || fs.contains (p ++ ".ts") || fs.contains (p ++ ".tsx")

/-- Stable insertion of a string into a list kept sorted by decreasing
length, placing it after elements of equal length (JS stable
`sort((a, b) => b.length - a.length)` places already-seen equals first). -/
def insertLenDesc (x : String) : List String → List String
  | [] => [x]
  | y :: ys => if x.length ≤ y.length then y :: insertLenDesc x ys else x :: y :: ys

/-- Stable sort by decreasing string length, matching the JS comparator
`(a, b) => b.length - a.length` of `findMatchingAlias`. -/
def sortLenDesc (l : List String) : List String :=
  l.foldl (fun acc x => insertLenDesc x acc) []

/-- The one-or-two-segment alias form of a specifier: JS
`importPath.includes('/') ? importPath.split('/').slice(0, 2).join('/') : importPath.split('/')[0]`. -/
def fullAliasOf (s : String) : String :=
  if jsIncludes s "/" then seg01 s else seg0 s

/-- The pre-filter of `scanAndReport` (src/monocheck.ts lines 922-925): an
alias-style specifier with no configured alias key as prefix is skipped
entirely when its root package is a declared dependency or is present under
`node_modules`. -/
def preFilterSkip (env : ScanEnv) (importPath : String) : Bool :=
  jsStartsWith importPath "@" &&
    !(env.cfg.aliases.any (fun e => jsStartsWith importPath e.1)) &&
    (depTruthy env.deps (seg0 importPath) || env.nodeModulesPkgs.contains (seg0 importPath))

/-- `newImportPath` of the rename action (src/monocheck.ts line 948):
`special.prefixOnly ? importPath.replace(key, special.value!) : special.value`. -/
def renameNewImportPath (importPath key : String) (special : SpecialCase) : Option String :=
  if special.prefixOnly then some (jsReplaceOnce importPath key (jsUndef special.value))
  else special.value

/-- `isSpecialCaseRoot` (src/monocheck.ts lines 999-1001): some special-case
key extends (or equals) the root package name. -/
def isSpecialCaseRootB (cfg : Config) (rootPkg : String) : Bool :=
  cfg.specialCases.any
    (fun e => if e.2.prefixOnly then jsStartsWith e.1 rootPkg else e.1 == rootPkg)

/-- The condition that suppresses the install suggestion for an unknown
alias (src/monocheck.ts line 1004): `isSpecialCaseRoot || dir.dependencies?.[rootPkg]`. -/
def unknownRootKnown (env : ScanEnv) (rootPkg : String) : Bool :=
  isSpecialCaseRootB env.cfg rootPkg || depTruthy env.deps rootPkg

/-- Translated from `resolveImportPath` (src/monocheck.ts lines 89-113 and
src/src/helpers.ts lines 135-161): resolve an import specifier to an
absolute path, or `none`.  The `require.resolve` fall-back is the external
`env.extResolve`. -/
def resolveImportPath (env : ScanEnv) (importPath filePath : String) : Option String :=
  let fileDir := dirname filePath
  if jsStartsWith importPath "." then
    let resolved := nodeResolve fileDir importPath
    if exists3 env.fs resolved then some resolved else none
  else
    let aliasRoot := seg0 importPath
    let aliasPath := fullAliasOf importPath
    match lookupAlias env.cfg aliasPath with
    | some ac =>
      let relativePart := jsReplaceOnce importPath (aliasPath ++ "/") ""
      let resolved := nodeResolve ac.path relativePart
      if exists3 env.fs resolved then some resolved else none
    | none =>
      match lookupAlias env.cfg aliasRoot with
      | some ac =>
        let relativePart := jsReplaceOnce importPath (aliasRoot ++ "/") ""
        let resolved := nodeResolve ac.path relativePart
        if exists3 env.fs resolved then some resolved else none
      | none => env.extResolve importPath

/-- The alias names whose configured base path is a string prefix of the
resolved path: the `filter`/`map` stage of `findMatchingAlias`. -/
def aliasMatches (cfg : Config) (resolvedPath : String) : List String :=
  (cfg.aliases.filter (fun e => jsStartsWith resolvedPath e.2.path)).map (fun e => e.1)

/-- Translated from `findMatchingAlias` (src/src/helpers.ts lines 169-176):
keep the aliases whose base path is a string prefix of the resolved path,
sort them by decreasing alias-name length and take the first
(`possibleAliases[0] || null`). -/
def findMatchingAlias (resolvedPath : Option String) (cfg : Config) : Option String :=
  match resolvedPath with
  | none => none
  | some p =>
    match sortLenDesc (aliasMatches cfg p) with
    | [] => none
    | a :: _ => if a == "" then none else some a

/-- Translated from `convertToAliasPath` (src/src/helpers.ts lines 185-192). -/
def convertToAliasPath (resolvedPath aliasName : String) (cfg : Config) : Option String :=
  match lookupAlias cfg aliasName with
  | none => none
  | some aliasConfig =>
    let relativePart := slashify (nodeRelative aliasConfig.path resolvedPath)
    if jsStartsWith relativePart ".." then none else some (aliasName ++ "/" ++ relativePart)

/-- First matching special case: JS
`Object.entries(config.specialCases).find(([key]) => prefixOnly ? importPath.startsWith(key) : importPath === key)`
(src/monocheck.ts lines 928-930). -/
def findSpecialCase (specialCases : List (String × SpecialCase)) (importPath : String) :
    Option (String × SpecialCase) :=
  specialCases.find? (fun e => if e.2.prefixOnly then jsStartsWith importPath e.1 else importPath == e.1)

/-- First matching community solution (src/monocheck.ts lines 932-934). -/
def findCommunityMatch (sols : List CommunitySolution) (importPath : String) :
    Option CommunitySolution :=
  sols.find? (fun m => if m.prefixOnly then jsStartsWith importPath m.fromKey else importPath == m.fromKey)

/-- The community-derived suggestion text for an active import
(src/monocheck.ts lines 935-940). -/
def communitySuggestionText (m : CommunitySolution) : String :=
  if m.action == .rename then "Rename to: import ... from '" ++ m.toKey ++ "'"
  else "Replace with: import from '" ++ m.toKey ++ "' (" ++ m.description ++ ")"

/-- The community-derived suggestion text for a commented import
(src/monocheck.ts lines 1056-1061). -/
def commentedCommunityText (m : CommunitySolution) : String :=
  if m.action == .rename then "Uncomment and rename to: import ... from '" ++ m.toKey ++ "'"
  else "Uncomment and replace with: import from '" ++ m.toKey ++ "' (" ++ m.description ++ ")"

/-- One reported issue (`interface ImportIssue` in src/monocheck.ts); the
`category` field is the spec-level category of the branch that created the
issue (the source identifies the branch through the `issue` message). -/
inductive IssueCategory where
  | ruleMatch
  | shouldUseAlias
  | unresolvedRelative
  | unknownAlias
  | aliasMismatch
  | malformedCommentedImport
  | commentedNoAlias
deriving DecidableEq

/-- `interface ImportIssue` (src/monocheck.ts line 20) plus the category of
the branch that emitted it. -/
structure ImportIssue where
  file : String
  line : Nat
  importPath : String
  issue : String
  suggestion : Option String
  fixed : Bool := false
  commented : Bool := false
  category : IssueCategory
deriving DecidableEq

/-- The result of classifying one import occurrence: the emitted issue, the
module specifier written by `importDecl.setModuleSpecifier` when an active
fix was applied, and the replacement line text written when a commented fix
was applied. -/
structure ClassifyOutcome where
  issue : ImportIssue
  newSpecifier : Option String := none
  newLineText : Option String := none
deriving DecidableEq

/-- The special-case (override rule) block for an active import
(src/monocheck.ts lines 942-965). -/
def ruleMatchOutcome (env : ScanEnv) (relFile : String) (line : Nat)
    (importPath key : String) (special : SpecialCase) (sfc : Option String) :
    ClassifyOutcome :=
  match special.action with
  | .rename =>
    let newImportPath := renameNewImportPath importPath key special
    let suggestion :=
      jsOrS sfc (some ("Rename to: import ... from '" ++ jsUndef newImportPath ++ "'"))
    let doFix := env.autoFix && optTruthy newImportPath && !env.dryRun
    { issue := { file := relFile, line := line, importPath := importPath,
                 issue := "Special case: rename", suggestion := suggestion,
                 fixed := doFix, commented := false, category := .ruleMatch },
      newSpecifier := if doFix then newImportPath else none }
  | .replaceMethod =>
    let newImportPath := special.value
    let suggestion :=
      jsOrS sfc (some ("Replace with: import \x7b useUser \x7d from '" ++
        jsUndef newImportPath ++ "' (adjust usage accordingly)"))
    let doFix := env.autoFix && optTruthy newImportPath && !env.dryRun
    { issue := { file := relFile, line := line, importPath := importPath,
                 issue := "Special case: replace-method", suggestion := suggestion,
                 fixed := doFix, commented := false, category := .ruleMatch },
      newSpecifier := if doFix then newImportPath else none }
  | .exclude =>
    { issue := { file := relFile, line := line, importPath := importPath,
                 issue := "Special case: exclude", suggestion := some "Excluded from checks",
                 fixed := false, commented := false, category := .ruleMatch },
      newSpecifier := none }

/-- The relative-import block for an active import (src/monocheck.ts lines
967-992). -/
def relativeOutcome (env : ScanEnv) (relFile : String) (line : Nat)
    (importPath filePath : String) (resolvedPath : Option String) (sfc : Option String) :
    Option ClassifyOutcome :=
  match findMatchingAlias resolvedPath env.cfg with
  | some suggestedAlias =>
    let relativeImportPath := convertToAliasPath (jsUndef resolvedPath) suggestedAlias env.cfg
    let doFix := env.autoFix && optTruthy relativeImportPath && !env.dryRun
    some { issue := { file := relFile, line := line, importPath := importPath,
                      issue := "Relative import should use alias '" ++ suggestedAlias ++ "'",
                      suggestion :=
                        match relativeImportPath with
                        | some rip =>
                          if rip == "" then sfc
                          else some ("Change to: import ... from '" ++ rip ++ "'")
                        | none => sfc,
                      fixed := doFix, commented := false, category := .shouldUseAlias },
           newSpecifier := if doFix then relativeImportPath else none }
  | none =>
    if resolvedPath == none then
      some { issue := { file := relFile, line := line, importPath := importPath,
                        issue := "Relative import '" ++ importPath ++ "' cannot be resolved",
                        suggestion :=
                          jsOrS sfc (some ("File not found at " ++
                            nodeResolve (dirname filePath) importPath)),
                        fixed := false, commented := false, category := .unresolvedRelative } }
    else none

/-- The alias-style block for an active import (src/monocheck.ts lines
993-1035). -/
def atAliasOutcome (env : ScanEnv) (relFile : String) (line : Nat)
    (importPath : String) (resolvedPath : Option String) (sfc : Option String) :
    Option ClassifyOutcome :=
  let aliasRoot := seg0 importPath
  let fullAlias := fullAliasOf importPath
  match lookupAlias env.cfg fullAlias, lookupAlias env.cfg aliasRoot with
  | none, none =>
    let rootPkg := aliasRoot
    let suggestion := jsOrS sfc
      (if unknownRootKnown env rootPkg then none
       else some ("Module '" ++ rootPkg ++ "' not found. Run: bun add " ++ rootPkg))
    some { issue := { file := relFile, line := line, importPath := importPath,
                      issue := "Unknown alias '" ++ fullAlias ++ "' or '" ++ aliasRoot ++ "'",
                      suggestion :=
                        jsOrS suggestion (some "Verify alias in tsconfig.json or use relative path"),
                      fixed := false, commented := false, category := .unknownAlias } }
  | fa, ra =>
    let expectedPath := jsOrS (fa.map (fun ac => ac.path)) (ra.map (fun ac => ac.path))
    match resolvedPath, expectedPath with
    | some p, some e =>
      if !(e == "") && !(jsStartsWith p e) then
        let suggestedAlias := findMatchingAlias (some p) env.cfg
        let relativeImportPath :=
          match suggestedAlias with
          | some a => convertToAliasPath p a env.cfg
          | none => none
        let doFix := env.autoFix && optTruthy relativeImportPath && !env.dryRun
        some { issue := { file := relFile, line := line, importPath := importPath,
                          issue := "Alias '" ++ importPath ++ "' resolves incorrectly",
                          suggestion :=
                            match relativeImportPath with
                            | some rip =>
                              if rip == "" then
                                jsOrS sfc (some ("Verify path for '" ++ importPath ++ "'"))
                              else some ("Change to: import ... from '" ++ rip ++ "'")
                            | none => jsOrS sfc (some ("Verify path for '" ++ importPath ++ "'")),
                          fixed := doFix, commented := false, category := .aliasMismatch },
               newSpecifier := if doFix then relativeImportPath else none }
      else none
    | _, _ => none

/-- Classification of one active import occurrence: the body of the
`for (const importDecl of imports)` loop of `scanAndReport`
(src/monocheck.ts lines 917-1036).  Returns `none` when the occurrence is
skipped or canonical. -/
def classifyActive (env : ScanEnv) (filePath importPath : String) (line : Nat) :
    Option ClassifyOutcome :=
  if !(jsStartsWith importPath ".") && !(jsStartsWith importPath "@") then none
  else if preFilterSkip env importPath then none
  else
    let relFile := nodeRelative env.cwd filePath
    let resolvedPath := resolveImportPath env importPath filePath
    let sfc := (findCommunityMatch env.community importPath).map communitySuggestionText
    match findSpecialCase env.cfg.specialCases importPath with
    | some (key, special) => some (ruleMatchOutcome env relFile line importPath key special sfc)
    | none =>
      if jsStartsWith importPath "." then
        relativeOutcome env relFile line importPath filePath resolvedPath sfc
      else if jsStartsWith importPath "@" then
        atAliasOutcome env relFile line importPath resolvedPath sfc
      else none

/-- A commented import captured by `findCommentedImports`. -/
structure CommentedImport where
  text : String
  line : Nat
  commentType : String
deriving DecidableEq

/-- The capture condition of the line-level scan of `findCommentedImports`
(src/src/helpers.ts lines 203-208): after trimming, the line starts with
`//` or `#` and contains both `import` and `from`. -/
def lineCaptureCond (lineText : String) : Bool :=
  let trimmed := jsTrim lineText
  (jsStartsWith trimmed "//" || jsStartsWith trimmed "#") &&
    jsIncludes trimmed "import" && jsIncludes trimmed "from"

/-- The line-level part of `findCommentedImports` (src/src/helpers.ts lines
199-208): scan the file text line by line and capture every line satisfying
`lineCaptureCond`.  The block-comment part of the source walks ts-morph
syntax-tree trivia and is outside this per-line model. -/
def findCommentedImportLines (fullText : String) : List CommentedImport :=
  (splitLines fullText).enum.filterMap (fun p =>
    if lineCaptureCond p.2 then
      some { text := jsTrim p.2, line := p.1 + 1,
             commentType := if jsStartsWith (jsTrim p.2) "//" then "single-line" else "hash" }
    else none)

/-- Greedy tail of the commented-import regex after `from`: `\s+['"]([^'"]+)['"]`.
Returns the captured specifier characters. -/
def parseAfterFrom (l : List Char) : Option (List Char) :=
  let l1 := l.dropWhile isJsWs
  if l1.length == l.length then none
  else
    match l1 with
    | [] => none
    | q :: rest =>
      if isQuote q then
        let cap := rest.takeWhile (fun c => !(isQuote c))
        match rest.drop cap.length with
        | _ :: _ => if cap.isEmpty then none else some cap
        | [] => none
      else none

/-- Backtracking search for the rightmost `\s+from` whose tail matches
`parseAfterFrom` (the greedy `.*` of the regex prefers the rightmost
occurrence). -/
def searchFromRight : List Char → Option (List Char)
  | [] => none
  | c :: rest =>
    match searchFromRight rest with
    | some cap => some cap
    | none =>
      if isJsWs c && "from".data.isPrefixOf rest then parseAfterFrom (rest.drop 4)
      else none

/-- Try to match `import\s+.*\s+from\s+['"]([^'"]+)['"]` starting exactly at
the head of `l`. -/
def matchImportAt (l : List Char) : Option (List Char) :=
  if "import".data.isPrefixOf l then
    match l.drop 6 with
    | c :: rest => if isJsWs c then searchFromRight rest else none
    | [] => none
  else none

/-- Leftmost-match search over all start positions. -/
def importFromSearch : List Char → Option (List Char)
  | [] => none
  | c :: rest =>
    match matchImportAt (c :: rest) with
    | some cap => some cap
    | none => importFromSearch rest

/-- JS `text.match(/import\s+.*\s+from\s+['"]([^'"]+)['"]/)?.[1]`
(src/monocheck.ts line 1041): the captured module specifier of the first
match, `none` when the text does not match.  The texts handed to it are
single lines, so the newline-exclusion of `.` is immaterial. -/
def jsImportFromMatch (s : String) : Option String :=
  (importFromSearch s.data).map String.mk

/-- Branch `^\s*\/\/+\s*|^#+\s*` of the comment-marker stripping regex,
which can only fire at the start of the text. -/
def stripLineMarker (l : List Char) : List Char :=
  let w := l.takeWhile isJsWs
  let rest := l.drop w.length
  let slashes := rest.takeWhile (fun c => c = '/')
  if slashes.length ≥ 2 then (rest.drop slashes.length).dropWhile isJsWs
  else
    let hashes := l.takeWhile (fun c => c = '#')
    if hashes.length ≥ 1 then (l.drop hashes.length).dropWhile isJsWs
    else l

/-- Branches `\/\*|\*\/` of the stripping regex: remove every `/*` and `*/`
in one left-to-right pass, as the global regex does. -/
def stripBlockMarks : List Char → List Char
  | [] => []
  | [a] => [a]
  | a :: b :: rest =>
    if (a = '/' && b = '*') || (a = '*' && b = '/') then stripBlockMarks rest
    else a :: stripBlockMarks (b :: rest)

/-- JS `text.replace(/^\s*\/\/+\s*|^#+\s*|\/\*|\*\//g, '')`
(src/monocheck.ts lines 1070, 1082, 1110, 1116). -/
def jsStripCommentMarkers (s : String) : String :=
  String.mk (stripBlockMarks (stripLineMarker s.data))

/-- The special-case block for a commented import (src/monocheck.ts lines
1063-1089). -/
def commentedRuleMatchOutcome (env : ScanEnv) (relFile : String) (line : Nat)
    (text importPath key : String) (special : SpecialCase) (sfc : Option String) :
    ClassifyOutcome :=
  match special.action with
  | .rename =>
    let newImportPath := renameNewImportPath importPath key special
    let fixedLine := jsReplaceOnce (jsStripCommentMarkers text) importPath (jsUndef newImportPath)
    let suggestion := jsOrS sfc (some ("Uncomment and rename to: " ++ fixedLine))
    let doFix := env.autoFix && optTruthy newImportPath && !env.dryRun
    { issue := { file := relFile, line := line, importPath := importPath,
                 issue := "Commented special case: rename", suggestion := suggestion,
                 fixed := doFix, commented := true, category := .ruleMatch },
      newLineText := if doFix then some fixedLine else none }
  | .replaceMethod =>
    let newImportPath := special.value
    let fixedLine := jsReplaceOnce (jsStripCommentMarkers text) importPath (jsUndef newImportPath)
    let suggestion := jsOrS sfc
      (some ("Uncomment and replace with: import \x7b useUser \x7d from '" ++
        jsUndef newImportPath ++ "' (adjust usage accordingly)"))
    let doFix := env.autoFix && optTruthy newImportPath && !env.dryRun
    { issue := { file := relFile, line := line, importPath := importPath,
                 issue := "Commented special case: replace-method", suggestion := suggestion,
                 fixed := doFix, commented := true, category := .ruleMatch },
      newLineText := if doFix then some fixedLine else none }
  | .exclude =>
    { issue := { file := relFile, line := line, importPath := importPath,
                 issue := "Commented special case: exclude", suggestion := some "Excluded from checks",
                 fixed := false, commented := true, category := .ruleMatch },
      newLineText := none }

/-- Classification of one commented import occurrence: the body of the
`for (const { text, line, commentType } of commentedImports)` loop of
`scanAndReport` (src/monocheck.ts lines 1040-1122).  Every captured
commented occurrence yields exactly one issue. -/
def classifyCommented (env : ScanEnv) (filePath text : String) (line : Nat) :
    ClassifyOutcome :=
  let relFile := nodeRelative env.cwd filePath
  match jsImportFromMatch text with
  | none =>
    { issue := { file := relFile, line := line, importPath := text,
                 issue := "Invalid commented import syntax",
                 suggestion := some "Manually review and fix",
                 fixed := false, commented := true, category := .malformedCommentedImport } }
  | some importPath =>
    let resolvedPath := resolveImportPath env importPath filePath
    let sfc := (findCommunityMatch env.community importPath).map commentedCommunityText
    match findSpecialCase env.cfg.specialCases importPath with
    | some (key, special) =>
      commentedRuleMatchOutcome env relFile line text importPath key special sfc
    | none =>
      match resolvedPath with
      | none =>
        let rootPkg := if jsStartsWith (seg0 importPath) "@" then seg01 importPath else seg0 importPath
        let suggestion := jsOrS sfc
          (some (if unknownRootKnown env rootPkg then "Uncomment to use"
                 else "Module '" ++ rootPkg ++ "' not found. Run: bun add " ++ rootPkg))
        { issue := { file := relFile, line := line, importPath := importPath,
                     issue := "Commented import '" ++ importPath ++ "' cannot be resolved",
                     suggestion := suggestion, fixed := false, commented := true,
                     category := .unresolvedRelative } }
      | some r =>
        let suggestedAlias := findMatchingAlias (some r) env.cfg
        let newImportPath : Option String :=
          match suggestedAlias with
          | some a => convertToAliasPath r a env.cfg
          | none => some importPath
        let fixedLine := jsReplaceOnce (jsStripCommentMarkers text) importPath (jsUndef newImportPath)
        let doFix := env.autoFix && optTruthy newImportPath && !env.dryRun
        { issue := { file := relFile, line := line, importPath := importPath,
                     issue :=
                       match suggestedAlias with
                       | some a => "Commented import should use alias '" ++ a ++ "'"
                       | none => "Commented import has no matching alias",
                     suggestion := jsOrS sfc (some ("Uncomment and change to: " ++ fixedLine)),
                     fixed := doFix, commented := true,
                     category :=
                       match suggestedAlias with
                       | some _ => .shouldUseAlias
                       | none => .commentedNoAlias },
          newLineText := if doFix then some fixedLine else none }

/-- The per-directory report record (src/monocheck.ts lines 1131-1138). -/
structure DirReport where
  totalFiles : Nat
  totalIssues : Nat
  standardIssues : Nat
  commentedIssues : Nat
  fixedIssues : Nat
  issues : List ImportIssue
deriving DecidableEq

/-- Construction of the per-directory report written at the end of a scan
pass (src/monocheck.ts lines 1131-1139). -/
def buildReport (totalFiles : Nat) (issues : List ImportIssue) : DirReport :=
  { totalFiles := totalFiles,
    totalIssues := issues.length,
    standardIssues := (issues.filter (fun i => !i.commented)).length,
    commentedIssues := (issues.filter (fun i => i.commented)).length,
    fixedIssues := (issues.filter (fun i => i.fixed)).length,
    issues := issues }

/-- The hard timeout of the community-rule retrieval, in milliseconds
(src/repofix.ts line 105: `setTimeout(() => reject(new Error('Timeout')), 5000)`). -/
def FETCH_TIMEOUT_MS : Nat := 5000

/-- The possible outcomes of the `Promise.race` between the fetch and the
timeout in `fetchCommunitySolutions` (src/repofix.ts lines 103-119): the
response settles first (with its HTTP `ok` flag, status and parsed body),
the transport fails, or the 5-second timer fires first. -/
inductive FetchEvent where
  | response (ok : Bool) (status : Nat) (body : List CommunitySolution)
  | transportError
  | timedOut

/-- Translated from `fetchCommunitySolutions` (src/repofix.ts lines
103-119): a non-ok response throws `HTTP <status>`, and every thrown error
(HTTP, transport, timeout) is caught and degraded to the empty rule list. -/
def fetchCommunitySolutionsResult : FetchEvent → List CommunitySolution
  | .response ok _ body => if ok then body else []
  | .transportError => []
  | .timedOut => []

/-- Whether the second classification of an occurrence reports none of the
`RuleMatch`, `ShouldUseAlias`, `AliasMismatch` categories. -/
def NotReFlagged (o : Option ClassifyOutcome) : Prop :=
  ∀ out, o = some out →
    out.issue.category ≠ .ruleMatch ∧ out.issue.category ≠ .shouldUseAlias ∧
    out.issue.category ≠ .aliasMismatch

/-- Amended C1: on an override rule match, the issue carries the override
action label; the recorded suggestion text is the community rule's own text
whenever a community rule also matches; any applied fix rewrites to the
override's replacement. -/
def C1AmendedProp (env : ScanEnv) (fp ip : String) (ln : Nat) (key : String)
    (sc : SpecialCase) (m : CommunitySolution) : Prop :=
  ∃ out, classifyActive env fp ip ln = some out ∧
    out.issue.category = .ruleMatch ∧
    out.issue.issue = "Special case: rename" ∧
    out.issue.suggestion = some (communitySuggestionText m) ∧
    (env.autoFix = true → env.dryRun = false →
      optTruthy (renameNewImportPath ip key sc) = true →
      out.newSpecifier = renameNewImportPath ip key sc ∧ out.issue.fixed = true)

/-- Amended C2: a relative import resolving under at least one alias is
reported with the matching alias of maximal alias-name length (not maximal
base-path length); when the alias path conversion succeeds, the suggestion
uses it. -/
def C2AmendedProp (env : ScanEnv) (fp ip : String) (ln : Nat) (A r : String) : Prop :=
  ∃ out, classifyActive env fp ip ln = some out ∧
    out.issue.category = .shouldUseAlias ∧
    out.issue.issue = "Relative import should use alias '" ++ A ++ "'" ∧
    A ∈ aliasMatches env.cfg r ∧
    (∀ b ∈ aliasMatches env.cfg r, b.length ≤ A.length) ∧
    (∀ rip, convertToAliasPath r A env.cfg = some rip → rip ≠ "" →
      out.issue.suggestion = some ("Change to: import ... from '" ++ rip ++ "'"))

/-- Amended C4: the replacement specifier of a matched rename rule. -/
def C4RenameProp (env : ScanEnv) (fp ip : String) (ln : Nat) (key : String)
    (sc : SpecialCase) (v : String) : Prop :=
  ∃ out, classifyActive env fp ip ln = some out ∧
    out.newSpecifier = some (if sc.prefixOnly then v ++ stringDrop ip key.length else v) ∧
    out.issue.fixed = true

/-- Amended C5: behaviour of alias-style specifiers with unknown roots: the
pre-filter skips known-dependency roots outright; otherwise an unknown-alias
issue is emitted whose suggestion is the community text, the install
message, or the verify-alias message. -/
def C5AmendedProp (env : ScanEnv) (fp ip : String) (ln : Nat) : Prop :=
  (preFilterSkip env ip = true → classifyActive env fp ip ln = none) ∧
  (preFilterSkip env ip = false →
    lookupAlias env.cfg (fullAliasOf ip) = none →
    lookupAlias env.cfg (seg0 ip) = none →
    findSpecialCase env.cfg.specialCases ip = none →
    ∃ out, classifyActive env fp ip ln = some out ∧
      out.issue.category = .unknownAlias ∧
      out.issue.issue = "Unknown alias '" ++ fullAliasOf ip ++ "' or '" ++ seg0 ip ++ "'" ∧
      (∀ m, findCommunityMatch env.community ip = some m →
        out.issue.suggestion = some (communitySuggestionText m)) ∧
      (findCommunityMatch env.community ip = none →
        (unknownRootKnown env (seg0 ip) = false →
          out.issue.suggestion = some ("Module '" ++ seg0 ip ++ "' not found. Run: bun add " ++ seg0 ip)) ∧
        (unknownRootKnown env (seg0 ip) = true →
          out.issue.suggestion = some "Verify alias in tsconfig.json or use relative path")))

/-- Amended C7: an exclude-action rule match never produces a fix and its
suggestion is the sentinel text `Excluded from checks`. -/
def C7AmendedProp (env : ScanEnv) (fp ip : String) (ln : Nat) : Prop :=
  ∃ out, classifyActive env fp ip ln = some out ∧
    out.issue.fixed = false ∧
    out.newSpecifier = none ∧
    out.issue.suggestion = some "Excluded from checks" ∧
    out.issue.category = .ruleMatch

/-- The line-level scanner captured an entry at the given 1-based line number. -/
def capturedAt (fullText : String) (n : Nat) : Prop :=
  ∃ e ∈ findCommentedImportLines fullText, e.line = n

/-- Example configuration rule used by the override-precedence scenarios:
an exact-match rename override for `@old/lib`. -/
def scExactRename : SpecialCase :=
  { action := .rename, value := some "@new/lib", prefixOnly := false }

/-- Example community rule with the same matchKey as `scExactRename`. -/
def solSameKey : CommunitySolution :=
  { fromKey := "@old/lib", toKey := "@c/lib", action := .rename,
    description := "d", prefixOnly := false, category := "cat", priority := 1 }

/-- Scenario environment for C1: an exact rename override and a community
rule with the same matchKey, no aliases, no dependencies. -/
def envC1 : ScanEnv :=
  { cfg := { aliases := [], specialCases := [("@old/lib", scExactRename)] },
    community := [solSameKey], deps := [], nodeModulesPkgs := [], fs := [],
    extResolve := fun _ => none, cwd := "/w", autoFix := true, dryRun := false }

/-- Scenario environment for C2 and C3's witness: two aliases whose base
paths both prefix the resolved file, the shorter-named alias having the
longer (more specific) base path. -/
def envC2 : ScanEnv :=
  { cfg := { aliases := [("@a", { path := "/p/deep", description := "da" }),
                         ("@bbbb", { path := "/p", description := "db" })],
             specialCases := [] },
    community := [], deps := [], nodeModulesPkgs := [], fs := ["/p/deep/x.ts"],
    extResolve := fun _ => none, cwd := "/w", autoFix := true, dryRun := false }

/-- Example prefix rename rule whose replacement still begins with the
matchKey, used by the C3 counterexample. -/
def scLoopRename : SpecialCase :=
  { action := .rename, value := some "@olde", prefixOnly := true }

/-- Scenario environment for C3: a prefix rename override `@old → @olde`. -/
def envC3 : ScanEnv :=
  { cfg := { aliases := [], specialCases := [("@old", scLoopRename)] },
    community := [], deps := [], nodeModulesPkgs := [], fs := [],
    extResolve := fun _ => none, cwd := "/w", autoFix := true, dryRun := false }

/-- Scenario B rule of the specification: `@old → @new`, prefix only. -/
def scScenarioB : SpecialCase :=
  { action := .rename, value := some "@new", prefixOnly := true }

/-- Scenario environment for C4 (Scenario B of the specification). -/
def envC4 : ScanEnv :=
  { cfg := { aliases := [], specialCases := [("@old", scScenarioB)] },
    community := [], deps := [], nodeModulesPkgs := [], fs := [],
    extResolve := fun _ => none, cwd := "/w", autoFix := true, dryRun := false }

/-- Scenario environment for C5: `@known` is a declared dependency but not
an alias; the specifier `@known/x` is then skipped without any issue. -/
def envC5 : ScanEnv :=
  { cfg := { aliases := [], specialCases := [] },
    community := [], deps := [("@known", "1.0.0")], nodeModulesPkgs := [], fs := [],
    extResolve := fun _ => none, cwd := "/w", autoFix := false, dryRun := false }

/-- Scenario environment for C5's emission witness: the alias `@kno` makes
some alias key a prefix of `@known/x`, so the pre-filter does not skip it,
while neither `@known` nor `@known/x` is a configured alias. -/
def envC5b : ScanEnv :=
  { cfg := { aliases := [("@kno", { path := "/p", description := "dk" })], specialCases := [] },
    community := [], deps := [("@known", "1.0.0")], nodeModulesPkgs := [], fs := [],
    extResolve := fun _ => none, cwd := "/w", autoFix := false, dryRun := false }

/-- Example exclude rule for C7. -/
def scExclude : SpecialCase :=
  { action := .exclude, value := none, prefixOnly := false }

/-- Scenario environment for C7: an exclude override with fixing enabled. -/
def envC7 : ScanEnv :=
  { cfg := { aliases := [], specialCases := [("@legacy/pkg", scExclude)] },
    community := [], deps := [], nodeModulesPkgs := [], fs := [],
    extResolve := fun _ => none, cwd := "/w", autoFix := true, dryRun := false }

/-- A commented line whose text contains `import` and `from` but does not
parse as an import statement (no quoted specifier). -/
def malformedCommentText : String := "// import everything from somewhere"

/-! ### General lemmas about the embedded JavaScript primitives -/

/-- A string cannot start with both `.` and `@`. -/
theorem startsWith_dot_not_at (s : String) (h : jsStartsWith s "." = true) :
    jsStartsWith s "@" = false := by
  cases s with
  | mk l =>
    unfold jsStartsWith at h ⊢
    cases l with
    | nil => simp [List.isPrefixOf] at h
    | cons c cs =>
      have e1 : (".".data) = ['.'] := rfl
      have e2 : ("@".data) = ['@'] := rfl
      rw [e1] at h
      rw [e2]
      simp only [List.isPrefixOf, List.isPrefixOf_nil_left, Bool.and_true] at h ⊢
      have hc : c = '.' := by
        have := of_decide_eq_true (by simpa [beq_iff_eq] using h : decide ('.' = c) = true)
        exact this.symm
      subst hc
      decide

/-- `a || b` keeps a non-empty left operand. -/
theorem jsOrS_some_of_ne (t : String) (b : Option String) (h : t ≠ "") :
    jsOrS (some t) b = some t := by
  simp [jsOrS, h]

/-- `null || b` is `b`. -/
theorem jsOrS_none (b : Option String) : jsOrS none b = b := rfl

/-- Community suggestion texts are never empty. -/
theorem communitySuggestionText_ne_empty (m : CommunitySolution) :
    communitySuggestionText m ≠ "" := by
  unfold communitySuggestionText
  split <;> intro h <;>
    (have hlen := congrArg String.length h
     simp [String.length_append] at hlen
     exact absurd hlen.2 (by decide))

/-- Replacing the first occurrence of a prefix replaces exactly that prefix. -/
theorem jsReplaceOnce_at_start (s pat rep : String) (h : jsStartsWith s pat = true) :
    jsReplaceOnce s pat rep = rep ++ stringDrop s pat.length := by
  apply String.ext
  rw [String.data_append]
  show replaceOnceList pat.data rep.data s.data = rep.data ++ s.data.drop pat.data.length
  unfold jsStartsWith at h
  cases hs : s.data with
  | nil =>
    rw [hs] at h
    cases hp : pat.data with
    | nil => simp [replaceOnceList]
    | cons p ps => rw [hp] at h; simp [List.isPrefixOf] at h
  | cons c cs =>
    rw [hs] at h
    simp [replaceOnceList, h]

/-- Membership through stable insertion. -/
theorem mem_insertLenDesc (x b : String) (l : List String) :
    b ∈ insertLenDesc x l ↔ b = x ∨ b ∈ l := by
  induction l with
  | nil => simp [insertLenDesc]
  | cons y ys ih =>
    unfold insertLenDesc
    by_cases h : x.length ≤ y.length
    · simp only [if_pos h, List.mem_cons, ih]
      tauto
    · simp only [if_neg h, List.mem_cons]

/-- Stable insertion preserves the sorted-by-decreasing-length invariant. -/
theorem pairwise_insertLenDesc (x : String) (l : List String)
    (hl : l.Pairwise (fun a b => b.length ≤ a.length)) :
    (insertLenDesc x l).Pairwise (fun a b => b.length ≤ a.length) := by
  induction l with
  | nil => simp [insertLenDesc]
  | cons y ys ih =>
    rcases List.pairwise_cons.mp hl with ⟨hy, hys⟩
    unfold insertLenDesc
    by_cases h : x.length ≤ y.length
    · rw [if_pos h]
      refine List.pairwise_cons.mpr ⟨?_, ih hys⟩
      intro b hb
      rcases (mem_insertLenDesc x b ys).mp hb with rfl | hbm
      · exact h
      · exact hy b hbm
    · rw [if_neg h]
      refine List.pairwise_cons.mpr ⟨?_, hl⟩
      intro b hb
      rcases List.mem_cons.mp hb with rfl | hbm
      · exact Nat.le_of_lt (Nat.lt_of_not_le h)
      · exact Nat.le_trans (hy b hbm) (Nat.le_of_lt (Nat.lt_of_not_le h))

/-- The fold underlying `sortLenDesc` preserves sortedness. -/
theorem pairwise_sortLenDesc_aux (l acc : List String)
    (hacc : acc.Pairwise (fun a b => b.length ≤ a.length)) :
    (l.foldl (fun acc x => insertLenDesc x acc) acc).Pairwise
      (fun a b => b.length ≤ a.length) := by
  induction l generalizing acc with
  | nil => exact hacc
  | cons x xs ih => exact ih _ (pairwise_insertLenDesc x acc hacc)

/-- `sortLenDesc` is sorted by decreasing length. -/
theorem pairwise_sortLenDesc (l : List String) :
    (sortLenDesc l).Pairwise (fun a b => b.length ≤ a.length) :=
  pairwise_sortLenDesc_aux l [] (by simp)

/-- Membership through the fold underlying `sortLenDesc`. -/
theorem mem_sortLenDesc_aux (l : List String) (acc : List String) (b : String) :
    b ∈ l.foldl (fun acc x => insertLenDesc x acc) acc ↔ b ∈ l ∨ b ∈ acc := by
  induction l generalizing acc with
  | nil => simp
  | cons x xs ih =>
    simp only [List.foldl_cons, ih, mem_insertLenDesc, List.mem_cons]
    tauto

/-- `sortLenDesc` is a permutation-level reordering: same members. -/
theorem mem_sortLenDesc (l : List String) (b : String) :
    b ∈ sortLenDesc l ↔ b ∈ l := by
  unfold sortLenDesc
  rw [mem_sortLenDesc_aux]
  simp

/-- The head of `sortLenDesc` is a member of maximal length. -/
theorem sortLenDesc_head_max (l : List String) (a : String) (rest : List String)
    (h : sortLenDesc l = a :: rest) :
    a ∈ l ∧ ∀ b ∈ l, b.length ≤ a.length := by
  constructor
  · exact (mem_sortLenDesc l a).mp (h ▸ List.mem_cons_self a rest)
  · intro b hb
    have hbs : b ∈ sortLenDesc l := (mem_sortLenDesc l b).mpr hb
    rw [h] at hbs
    rcases List.mem_cons.mp hbs with rfl | hbm
    · exact Nat.le_refl _
    · have hp := pairwise_sortLenDesc l
      rw [h] at hp
      exact (List.pairwise_cons.mp hp).1 b hbm

/-- `findMatchingAlias` returns a matching alias of maximal alias-name
length among all aliases whose base path prefixes the resolved path. -/
theorem findMatchingAlias_max (cfg : Config) (p A : String)
    (h : findMatchingAlias (some p) cfg = some A) :
    A ∈ aliasMatches cfg p ∧ ∀ b ∈ aliasMatches cfg p, b.length ≤ A.length := by
  have h' : (match sortLenDesc (aliasMatches cfg p) with
      | [] => (none : Option String)
      | a :: _ => if (a == "") = true then none else some a) = some A := h
  cases hs : sortLenDesc (aliasMatches cfg p) with
  | nil => rw [hs] at h'; exact absurd h' (by simp)
  | cons a rest =>
    rw [hs] at h'
    have h2 : (if (a == "") = true then none else some a) = some A := h'
    by_cases ha : (a == "") = true
    · rw [if_pos ha] at h2; exact absurd h2 (by simp)
    · rw [if_neg ha] at h2
      have haA : a = A := by injection h2
      subst haA
      exact sortLenDesc_head_max _ _ _ hs

/-- A matched special case satisfies its own match condition. -/
theorem findSpecialCase_matched (scs : List (String × SpecialCase)) (ip key : String)
    (sc : SpecialCase) (h : findSpecialCase scs ip = some (key, sc)) :
    (if sc.prefixOnly then jsStartsWith ip key else ip == key) = true := by
  have := List.find?_some h
  exact this

/-! ### Dispatch lemmas for `classifyActive` -/

/-- When the guards pass and a special case matches, classification reduces
to the rule-match block. -/
theorem classifyActive_specialCase (env : ScanEnv) (fp ip : String) (ln : Nat)
    (key : String) (sc : SpecialCase)
    (hstart : (jsStartsWith ip "." || jsStartsWith ip "@") = true)
    (hskip : preFilterSkip env ip = false)
    (hsc : findSpecialCase env.cfg.specialCases ip = some (key, sc)) :
    classifyActive env fp ip ln =
      some (ruleMatchOutcome env (nodeRelative env.cwd fp) ln ip key sc
        ((findCommunityMatch env.community ip).map communitySuggestionText)) := by
  have h1 : (!(jsStartsWith ip ".") && !(jsStartsWith ip "@")) = false := by
    cases h0 : jsStartsWith ip "." <;> cases h0b : jsStartsWith ip "@" <;> simp_all
  unfold classifyActive
  simp [h1, hskip, hsc]

/-- When no rule matches a relative specifier, classification reduces to the
relative-import block. -/
theorem classifyActive_relative (env : ScanEnv) (fp ip : String) (ln : Nat)
    (hrel : jsStartsWith ip "." = true)
    (hsc : findSpecialCase env.cfg.specialCases ip = none) :
    classifyActive env fp ip ln =
      relativeOutcome env (nodeRelative env.cwd fp) ln ip fp
        (resolveImportPath env ip fp)
        ((findCommunityMatch env.community ip).map communitySuggestionText) := by
  have hat := startsWith_dot_not_at ip hrel
  have hskip : preFilterSkip env ip = false := by
    unfold preFilterSkip
    simp [hat]
  unfold classifyActive
  simp [hrel, hat, hskip, hsc]

/-- When no rule matches an alias-style specifier and the pre-filter does
not skip it, classification reduces to the alias block. -/
theorem classifyActive_atAlias (env : ScanEnv) (fp ip : String) (ln : Nat)
    (hat : jsStartsWith ip "@" = true)
    (hskip : preFilterSkip env ip = false)
    (hsc : findSpecialCase env.cfg.specialCases ip = none) :
    classifyActive env fp ip ln =
      atAliasOutcome env (nodeRelative env.cwd fp) ln ip
        (resolveImportPath env ip fp)
        ((findCommunityMatch env.community ip).map communitySuggestionText) := by
  have hdot : jsStartsWith ip "." = false := by
    cases h0 : jsStartsWith ip "." with
    | false => rfl
    | true =>
      have := startsWith_dot_not_at ip h0
      rw [hat] at this
      cases this
  unfold classifyActive
  simp [hdot, hat, hskip, hsc]

/-! ### C1: override rules versus community rules -/

/-- C1 counterexample: for the exact-match override rule on `@old/lib` with
a community rule of the same matchKey, the emitted Issue carries the
community rule's suggestion text, not the override's derived suggestion;
only the applied fix uses the override's replacement. -/
theorem c1_override_suggestion_counterexample :
    ((classifyActive envC1 "/w/a.ts" "@old/lib" 1).map
      (fun o => (o.issue.issue, o.issue.suggestion, o.newSpecifier, o.issue.fixed)) =
      some ("Special case: rename", some "Rename to: import ... from '@c/lib'",
        some "@new/lib", true)) ∧
    some "Rename to: import ... from '@c/lib'" ≠ some "Rename to: import ... from '@new/lib'" := by
  exact ⟨rfl, by decide⟩

/-- C1 amended: when a rename override matches together with a community
rule of the same specifier, the Issue keeps the override's action label and
any fix rewrites to the override's replacement, while the recorded
suggestion text is the community rule's. -/
theorem c1_override_precedence_amended (env : ScanEnv) (fp ip : String) (ln : Nat)
    (key : String) (sc : SpecialCase) (m : CommunitySolution)
    (hstart : (jsStartsWith ip "." || jsStartsWith ip "@") = true)
    (hskip : preFilterSkip env ip = false)
    (hsc : findSpecialCase env.cfg.specialCases ip = some (key, sc))
    (hact : sc.action = .rename)
    (hcm : findCommunityMatch env.community ip = some m) :
    C1AmendedProp env fp ip ln key sc m := by
  refine ⟨_, classifyActive_specialCase env fp ip ln key sc hstart hskip hsc, ?_, ?_, ?_, ?_⟩
  · simp [ruleMatchOutcome, hact]
  · simp [ruleMatchOutcome, hact]
  · simp [ruleMatchOutcome, hact, hcm,
      jsOrS_some_of_ne _ _ (communitySuggestionText_ne_empty m)]
  · intro hA hD hT
    constructor
    · simp [ruleMatchOutcome, hact, hA, hD, hT]
    · simp [ruleMatchOutcome, hact, hA, hD, hT]

/-- C1 witness: the amended statement applied to the concrete scenario. -/
theorem c1_override_precedence_witness :
    C1AmendedProp envC1 "/w/a.ts" "@old/lib" 1 "@old/lib" scExactRename solSameKey :=
  c1_override_precedence_amended envC1 "/w/a.ts" "@old/lib" 1 "@old/lib" scExactRename
    solSameKey (by decide) (by decide) (by decide) (by decide) (by decide)

/-! ### C4: rename replacement semantics -/

/-- C4: for a matched rename rule with replacement `v`, the applied
replacement specifier is `v` with the matchKey prefix substituted when
`prefixOnly` is set, and `v` verbatim otherwise. -/
theorem c4_rename_replacement (env : ScanEnv) (fp ip : String) (ln : Nat)
    (key : String) (sc : SpecialCase) (v : String)
    (hstart : (jsStartsWith ip "." || jsStartsWith ip "@") = true)
    (hskip : preFilterSkip env ip = false)
    (hsc : findSpecialCase env.cfg.specialCases ip = some (key, sc))
    (hact : sc.action = .rename)
    (hv : sc.value = some v)
    (hfix : env.autoFix = true)
    (hdr : env.dryRun = false)
    (hne : optTruthy (renameNewImportPath ip key sc) = true) :
    C4RenameProp env fp ip ln key sc v := by
  have hnp : renameNewImportPath ip key sc =
      some (if sc.prefixOnly then v ++ stringDrop ip key.length else v) := by
    unfold renameNewImportPath
    by_cases hp : sc.prefixOnly = true
    · rw [if_pos hp, if_pos hp]
      have hpre : jsStartsWith ip key = true := by
        have hm := findSpecialCase_matched _ _ _ _ hsc
        rw [if_pos hp] at hm
        exact hm
      rw [hv]
      show some (jsReplaceOnce ip key v) = _
      rw [jsReplaceOnce_at_start ip key v hpre]
    · rw [if_neg hp, if_neg hp]
      exact hv
  have hne2 := hne
  rw [hnp] at hne2
  refine ⟨_, classifyActive_specialCase env fp ip ln key sc hstart hskip hsc, ?_, ?_⟩
  · simp [ruleMatchOutcome, hact, hfix, hdr, hnp, hne2]
  · simp [ruleMatchOutcome, hact, hfix, hdr, hne]

/-- C4 witness (Scenario B of the specification): `@old/lib` under the rule
`{matchKey: "@old", action: rename, replacement: "@new", prefixOnly: true}`
is rewritten to exactly `@new/lib`. -/
theorem c4_rename_replacement_witness :
    C4RenameProp envC4 "/w/a.ts" "@old/lib" 1 "@old" scScenarioB "@new" ∧
    (if scScenarioB.prefixOnly then "@new" ++ stringDrop "@old/lib" "@old".length else "@new") =
      "@new/lib" :=
  ⟨c4_rename_replacement envC4 "/w/a.ts" "@old/lib" 1 "@old" scScenarioB "@new"
      (by decide) (by decide) (by decide) (by decide) (by decide) (by decide) (by decide)
      (by decide),
   by decide⟩

/-! ### C7: exclude rules never fix -/

/-- C7 counterexample: the sentinel suggestion of an exclude rule is the
capitalised text `Excluded from checks`, not the lower-case text the claim
quotes. -/
theorem c7_exclude_sentinel_counterexample :
    ((classifyActive envC7 "/w/a.ts" "@legacy/pkg" 1).map
      (fun o => (o.issue.suggestion, o.issue.fixed, o.newSpecifier)) =
      some (some "Excluded from checks", false, none)) ∧
    some "Excluded from checks" ≠ some "excluded from checks" := by
  exact ⟨rfl, by decide⟩

/-- C7 amended: an exclude-action rule match never sets `fixed`, never
produces a rewrite, and carries the sentinel suggestion
`Excluded from checks`, whatever the `--fix` / `--dry-run` flags are. -/
theorem c7_exclude_never_fixed_amended (env : ScanEnv) (fp ip : String) (ln : Nat)
    (key : String) (sc : SpecialCase)
    (hstart : (jsStartsWith ip "." || jsStartsWith ip "@") = true)
    (hskip : preFilterSkip env ip = false)
    (hsc : findSpecialCase env.cfg.specialCases ip = some (key, sc))
    (hact : sc.action = .exclude) :
    C7AmendedProp env fp ip ln := by
  refine ⟨_, classifyActive_specialCase env fp ip ln key sc hstart hskip hsc, ?_, ?_, ?_, ?_⟩ <;>
    simp [ruleMatchOutcome, hact]

/-- C7 witness: the amended statement at the concrete exclude scenario with
fixing enabled. -/
theorem c7_exclude_never_fixed_witness :
    C7AmendedProp envC7 "/w/a.ts" "@legacy/pkg" 1 :=
  c7_exclude_never_fixed_amended envC7 "/w/a.ts" "@legacy/pkg" 1 "@legacy/pkg" scExclude
    (by decide) (by decide) (by decide) (by decide)

/-! ### C2: alias selection for relative imports -/

/-- C2 counterexample: with aliases `@a ↦ /p/deep` and `@bbbb ↦ /p`, whose
base paths both prefix the resolved path `/p/deep/x`, the classifier picks
`@bbbb` (the longest alias name), although `@a` has the longer matching
base path, so the suggestion is not the one the longest-basePath rule would
give. -/
theorem c2_longest_basepath_counterexample :
    ((classifyActive envC2 "/p/deep/main.ts" "./x" 1).map
      (fun o => (o.issue.issue, o.issue.suggestion)) =
      some ("Relative import should use alias '@bbbb'",
        some "Change to: import ... from '@bbbb/deep/x'")) ∧
    aliasMatches envC2.cfg "/p/deep/x" = ["@a", "@bbbb"] ∧
    "/p".length < "/p/deep".length ∧
    some "Change to: import ... from '@bbbb/deep/x'" ≠
      some "Change to: import ... from '@a/x'" := by
  refine ⟨rfl, rfl, by decide, by decide⟩

/-- C2 amended: a relative specifier resolving under at least one alias is
reported with the alias of maximal alias-name length among all aliases
whose base path is a string prefix of the resolved path, and the suggestion
uses that alias whenever the alias path conversion succeeds. -/
theorem c2_longest_alias_name_amended (env : ScanEnv) (fp ip : String) (ln : Nat)
    (A r : String)
    (hrel : jsStartsWith ip "." = true)
    (hsc : findSpecialCase env.cfg.specialCases ip = none)
    (hres : resolveImportPath env ip fp = some r)
    (hfm : findMatchingAlias (some r) env.cfg = some A) :
    C2AmendedProp env fp ip ln A r := by
  have hcl := classifyActive_relative env fp ip ln hrel hsc
  rw [hres] at hcl
  unfold relativeOutcome at hcl
  rw [hfm] at hcl
  obtain ⟨hmem, hmax⟩ := findMatchingAlias_max env.cfg r A hfm
  refine ⟨_, hcl, ?_, ?_, hmem, hmax, ?_⟩
  · rfl
  · rfl
  · intro rip hconv hne
    show (match convertToAliasPath (jsUndef (some r)) A env.cfg with
      | some rip => if rip == "" then
          ((findCommunityMatch env.community ip).map communitySuggestionText)
        else some ("Change to: import ... from '" ++ rip ++ "'")
      | none => (findCommunityMatch env.community ip).map communitySuggestionText) =
      some ("Change to: import ... from '" ++ rip ++ "'")
    have hj : jsUndef (some r) = r := rfl
    rw [hj, hconv]
    simp [hne]

/-- C2 witness: the amended statement at the concrete two-alias scenario. -/
theorem c2_longest_alias_name_witness :
    C2AmendedProp envC2 "/p/deep/main.ts" "./x" 1 "@bbbb" "/p/deep/x" :=
  c2_longest_alias_name_amended envC2 "/p/deep/main.ts" "./x" 1 "@bbbb" "/p/deep/x"
    (by decide) (by decide) (by decide) (by decide)

/-! ### C3: idempotence of applied fixes -/

/-- C3 counterexample: under the prefix rename rule `@old → @olde`, fixing
`@old/lib` writes `@olde/lib`, which still starts with `@old`; the second
classification pass reports the same occurrence as a rule match again and
would rewrite it further, so the applied suggestion is not idempotent. -/
theorem c3_idempotence_counterexample :
    ((classifyActive envC3 "/w/a.ts" "@old/lib" 1).map
      (fun o => (o.issue.fixed, o.newSpecifier)) = some (true, some "@olde/lib")) ∧
    ((classifyActive envC3 "/w/a.ts" "@olde/lib" 1).map
      (fun o => (o.issue.category, o.issue.fixed, o.newSpecifier)) =
      some (IssueCategory.ruleMatch, true, some "@oldee/lib")) ∧
    some "@oldee/lib" ≠ some "@olde/lib" := by
  exact ⟨rfl, rfl, by decide⟩

/-- C3 amended: reclassifying the rewritten specifier of a fixed occurrence
yields no `RuleMatch`, `ShouldUseAlias` or `AliasMismatch` Issue, provided
no special-case rule matches the rewritten specifier, it is not relative,
its two-segment alias form is not itself an alias, and alias re-resolution
lands under the matched alias's base path. -/
theorem c3_idempotence_amended (env : ScanEnv) (fp ip np : String) (ln : Nat)
    (out : ClassifyOutcome)
    (_hfix : classifyActive env fp ip ln = some out)
    (_hnp : out.newSpecifier = some np)
    (h1 : findSpecialCase env.cfg.specialCases np = none)
    (h2 : jsStartsWith np "." = false)
    (h3 : jsStartsWith np "@" = true → lookupAlias env.cfg (fullAliasOf np) = none)
    (h4 : jsStartsWith np "@" = true → ∀ ac, lookupAlias env.cfg (seg0 np) = some ac →
      ∀ p, resolveImportPath env np fp = some p → jsStartsWith p ac.path = true) :
    NotReFlagged (classifyActive env fp np ln) := by
  intro out2 hout2
  cases hat : jsStartsWith np "@" with
  | false =>
    have hnone : classifyActive env fp np ln = none := by
      unfold classifyActive
      simp [h2, hat]
    rw [hnone] at hout2
    cases hout2
  | true =>
    cases hskip : preFilterSkip env np with
    | true =>
      have hnone : classifyActive env fp np ln = none := by
        unfold classifyActive
        simp [h2, hat, hskip]
      rw [hnone] at hout2
      cases hout2
    | false =>
      have hcl := classifyActive_atAlias env fp np ln hat hskip h1
      rw [hcl] at hout2
      simp only [atAliasOutcome] at hout2
      rw [h3 hat] at hout2
      cases hra : lookupAlias env.cfg (seg0 np) with
      | none =>
        rw [hra] at hout2
        have h5 := Option.some.inj hout2
        rw [← h5]
        exact ⟨by simp, by simp, by simp⟩
      | some ac =>
        rw [hra] at hout2
        cases hrp : resolveImportPath env np fp with
        | none =>
          rw [hrp] at hout2
          exact Option.noConfusion hout2
        | some p =>
          rw [hrp] at hout2
          have hsw := h4 hat ac hra p hrp
          simp [jsOrS, hsw] at hout2

/-- C3 witness: the amended statement applied to the alias fix of the
two-alias scenario: reclassifying the rewritten specifier `@bbbb/deep/x`
reports nothing. -/
theorem c3_idempotence_witness :
    NotReFlagged (classifyActive envC2 "/p/deep/main.ts" "@bbbb/deep/x" 1) :=
  c3_idempotence_amended envC2 "/p/deep/main.ts" "./x" "@bbbb/deep/x" 1
    { issue := { file := "../p/deep/main.ts", line := 1, importPath := "./x",
                 issue := "Relative import should use alias '@bbbb'",
                 suggestion := some "Change to: import ... from '@bbbb/deep/x'",
                 fixed := true, commented := false, category := .shouldUseAlias },
      newSpecifier := some "@bbbb/deep/x", newLineText := none }
    (by decide) (by decide) (by decide) (by decide) (by decide)
    (by
      intro _ ac hac p hp
      have h1 := Option.some.inj hac
      have h2 := Option.some.inj hp
      subst h1
      subst h2
      decide)

/-- The install suggestion message is never empty. -/
theorem installMsg_ne_empty (r : String) :
    ("Module '" ++ r ++ "' not found. Run: bun add " ++ r) ≠ "" := by
  intro h
  have hlen := congrArg String.length h
  simp [String.length_append] at hlen
  exact absurd hlen.1.2 (by decide)

/-! ### C5: unknown alias-style roots -/

/-- C5 counterexample: `@known` is a declared dependency and no alias key
prefixes `@known/x`, so the occurrence is skipped outright and no
UnknownAlias Issue is emitted at all, contradicting the claimed softer
verify-alias Issue. -/
theorem c5_known_dependency_counterexample :
    classifyActive envC5 "/w/a.ts" "@known/x" 1 = none ∧
    lookupAlias envC5.cfg (fullAliasOf "@known/x") = none ∧
    lookupAlias envC5.cfg (seg0 "@known/x") = none ∧
    depTruthy envC5.deps (seg0 "@known/x") = true := by
  exact ⟨rfl, rfl, rfl, rfl⟩

/-- C5 amended: an alias-style specifier whose root is a known dependency
(or has a node_modules artifact) and which no alias key prefixes is skipped
with no Issue; otherwise, when neither segment form is a configured alias
and no rule matches, an UnknownAlias Issue is emitted whose suggestion is
the community text if any, else the install message when the root is
neither a special-case root nor a dependency, else the verify-alias
message. -/
theorem c5_unknown_alias_amended (env : ScanEnv) (fp ip : String) (ln : Nat)
    (hat : jsStartsWith ip "@" = true) :
    C5AmendedProp env fp ip ln := by
  constructor
  · intro hskip
    have h1 : (!(jsStartsWith ip ".") && !(jsStartsWith ip "@")) = false := by
      rw [hat]
      simp
    unfold classifyActive
    simp [h1, hskip]
  · intro hskip hfull hroot hsc
    have hcl := classifyActive_atAlias env fp ip ln hat hskip hsc
    simp only [atAliasOutcome] at hcl
    rw [hfull, hroot] at hcl
    refine ⟨_, hcl, rfl, rfl, ?_, ?_⟩
    · intro m hm
      simp only [hm, Option.map_some']
      rw [jsOrS_some_of_ne _ _ (communitySuggestionText_ne_empty m)]
      rw [jsOrS_some_of_ne _ _ (communitySuggestionText_ne_empty m)]
    · intro hm
      constructor
      · intro hk
        simp only [hm, Option.map_none', jsOrS_none, hk, Bool.false_eq_true, if_false]
        rw [jsOrS_some_of_ne _ _ (installMsg_ne_empty (seg0 ip))]
      · intro hk
        simp only [hm, Option.map_none', jsOrS_none, hk, if_true]

/-- C5 witness: the amended statement at the scenario where `@kno` is a
configured alias key prefixing `@known/x`, so the unknown-alias Issue with
the verify-alias suggestion is reachable. -/
theorem c5_unknown_alias_witness :
    C5AmendedProp envC5b "/w/a.ts" "@known/x" 1 :=
  c5_unknown_alias_amended envC5b "/w/a.ts" "@known/x" 1 (by decide)

/-! ### C6: malformed commented imports -/

/-- C6 counterexample: the malformed commented line is reported with the
fixed suggestion `Manually review and fix`, not with a null suggestion. -/
theorem c6_malformed_suggestion_counterexample :
    (classifyCommented envC5 "/w/a.ts" malformedCommentText 3).issue.suggestion =
      some "Manually review and fix" ∧
    (classifyCommented envC5 "/w/a.ts" malformedCommentText 3).issue.issue =
      "Invalid commented import syntax" ∧
    jsImportFromMatch malformedCommentText = none ∧
    lineCaptureCond malformedCommentText = true ∧
    some "Manually review and fix" ≠ (none : Option String) := by
  exact ⟨rfl, rfl, rfl, rfl, by decide⟩

/-- C6 amended: a commented occurrence whose text does not parse as an
actual import statement is reported as `Invalid commented import syntax` with the
fixed suggestion `Manually review and fix`, as a commented issue with no
fix and no rewrite; rule matching, resolution and alias checks are all
skipped. -/
theorem c6_malformed_comment_amended (env : ScanEnv) (fp text : String) (ln : Nat)
    (h : jsImportFromMatch text = none) :
    classifyCommented env fp text ln =
      { issue := { file := nodeRelative env.cwd fp, line := ln, importPath := text,
                   issue := "Invalid commented import syntax",
                   suggestion := some "Manually review and fix",
                   fixed := false, commented := true, category := .malformedCommentedImport },
        newSpecifier := none, newLineText := none } := by
  simp only [classifyCommented, h]

/-- C6 witness: the amended statement at the concrete malformed line. -/
theorem c6_malformed_comment_witness :
    classifyCommented envC5 "/w/a.ts" malformedCommentText 3 =
      { issue := { file := nodeRelative envC5.cwd "/w/a.ts", line := 3,
                   importPath := malformedCommentText,
                   issue := "Invalid commented import syntax",
                   suggestion := some "Manually review and fix",
                   fixed := false, commented := true, category := .malformedCommentedImport },
        newSpecifier := none, newLineText := none } :=
  c6_malformed_comment_amended envC5 "/w/a.ts" malformedCommentText 3 (by decide)

/-! ### C8: the line-level comment scanner -/

/-- C8: a line of the file is captured by the line-level scan exactly when,
after trimming, it starts with `//` or `#` and contains both `import` and
`from`. -/
theorem c8_line_capture_characterization (fullText : String) (i : Nat) (lineText : String)
    (h : (splitLines fullText)[i]? = some lineText) :
    capturedAt fullText (i + 1) ↔ lineCaptureCond lineText = true := by
  unfold capturedAt findCommentedImportLines
  constructor
  · rintro ⟨e, he, hline⟩
    rw [List.mem_filterMap] at he
    obtain ⟨⟨idx, lt⟩, hmem, hf⟩ := he
    by_cases hc : lineCaptureCond lt = true
    · have hef : (if lineCaptureCond lt = true then
          some { text := jsTrim lt, line := idx + 1,
                 commentType := if jsStartsWith (jsTrim lt) "//" = true then "single-line" else "hash" }
          else none) = some e := hf
      rw [if_pos hc] at hef
      have he2 := Option.some.inj hef
      have hidx : idx = i := by
        have : e.line = idx + 1 := by rw [← he2]
        omega
      subst hidx
      have hlt : (splitLines fullText)[idx]? = some lt :=
        List.mk_mem_enum_iff_getElem?.mp hmem
      rw [h] at hlt
      have hle := Option.some.inj hlt
      rw [hle]
      exact hc
    · have hef : (if lineCaptureCond lt = true then
          some { text := jsTrim lt, line := idx + 1,
                 commentType := if jsStartsWith (jsTrim lt) "//" = true then "single-line" else "hash" }
          else none) = some e := hf
      rw [if_neg hc] at hef
      cases hef
  · intro hc
    refine ⟨{ text := jsTrim lineText, line := i + 1,
              commentType := if jsStartsWith (jsTrim lineText) "//" = true then "single-line" else "hash" },
      ?_, rfl⟩
    rw [List.mem_filterMap]
    refine ⟨(i, lineText), List.mk_mem_enum_iff_getElem?.mpr h, ?_⟩
    show (if lineCaptureCond lineText = true then _ else none) = _
    rw [if_pos hc]

/-- C8 witness: the characterization at a concrete file text and line. -/
theorem c8_line_capture_witness :
    capturedAt "const a = 1\n// import x from 'y'" 2 ↔
      lineCaptureCond "// import x from 'y'" = true :=
  c8_line_capture_characterization "const a = 1\n// import x from 'y'" 1
    "// import x from 'y'" (by decide)

/-! ### C9: community rule retrieval degradation -/

/-- C9: the community-rule retrieval runs under a 5000 ms timeout and
degrades to the empty rule list on an HTTP error, a transport failure or
the timeout, returning the parsed body only for an ok response. -/
theorem c9_fetch_timeout_and_degradation :
    FETCH_TIMEOUT_MS = 5000 ∧
    (∀ status body, fetchCommunitySolutionsResult (.response false status body) = []) ∧
    fetchCommunitySolutionsResult .transportError = [] ∧
    fetchCommunitySolutionsResult .timedOut = [] ∧
    (∀ status body, fetchCommunitySolutionsResult (.response true status body) = body) :=
  ⟨rfl, fun _ _ => rfl, rfl, rfl, fun _ _ => rfl⟩

/-! ### C10: report count invariants -/

/-- Splitting a list by a Boolean field partitions its length. -/
theorem length_filter_commented_partition (issues : List ImportIssue) :
    (issues.filter (fun i => !i.commented)).length +
      (issues.filter (fun i => i.commented)).length = issues.length := by
  induction issues with
  | nil => rfl
  | cons x xs ih =>
    cases h : x.commented with
    | true =>
      simp [List.filter_cons, h]
      omega
    | false =>
      simp [List.filter_cons, h]
      omega

/-- C10: in every per-directory report, `totalIssues` equals
`standardIssues + commentedIssues`, equals the length of the issue list,
and bounds `fixedIssues`. -/
theorem c10_report_partition (totalFiles : Nat) (issues : List ImportIssue) :
    (buildReport totalFiles issues).totalIssues =
      (buildReport totalFiles issues).standardIssues +
        (buildReport totalFiles issues).commentedIssues ∧
    (buildReport totalFiles issues).totalIssues = (buildReport totalFiles issues).issues.length ∧
    (buildReport totalFiles issues).fixedIssues ≤ (buildReport totalFiles issues).totalIssues := by
  refine ⟨?_, rfl, ?_⟩
  · exact (length_filter_commented_partition issues).symm
  · exact List.length_filter_le _ _
